import Mathlib

/-!
Shallow embedding of the recipe store (a Zustand store over a recipe
collection) and its selectors, together with theorems settling the
specification claims about it.

Modelling conventions:
* JS `Date` timestamps are `Nat` (milliseconds since epoch); each operation
  that reads the wall clock (`new Date()`) takes the observed time `now` as
  an explicit parameter.
* `crypto.randomUUID()` is modelled by passing the generated id as an
  explicit parameter to the operation that generates it.
* `string | null` is `Option String`; TS optional fields are `Option`.
* `Partial<T>` is a structure of `Option` fields: `none` means the key is
  absent from the partial, `some v` means the key is present with value `v`.
* JS string truthiness (`if (state.searchTerm)`, `if (state.filterCategory)`)
  is `≠ ""` (and non-`null` for nullable strings), embedded exactly where the
  source relies on it.
-/

/-- `Ingredient` interface: id, name, amount, unit, optional preparation. -/
structure Ingredient where
  id : String
  name : String
  amount : Int
  unit : String
  preparation : Option String
deriving DecidableEq, Repr

/-- `Instruction` interface: id, stepNumber, text. -/
structure Instruction where
  id : String
  stepNumber : Nat
  text : String
deriving DecidableEq, Repr

/-- `Nutrition` interface. -/
structure Nutrition where
  calories : Int
  protein : Int
  carbs : Int
  fat : Int
  sugar : Option Int
  sodium : Option Int
  fiber : Option Int
deriving DecidableEq, Repr

/-- The `difficulty` union type `"easy" | "medium" | "hard"`. -/
inductive Difficulty where
  | easy
  | medium
  | hard
deriving DecidableEq, Repr

/-- `Recipe` interface. -/
structure Recipe where
  id : String
  title : String
  description : String
  ingredients : List Ingredient
  instructions : List Instruction
  prepTime : Nat
  cookTime : Nat
  servings : Nat
  category : List String
  cuisine : String
  difficulty : Difficulty
  nutrition : Option Nutrition
  imageUrl : Option String
  author : String
  dateCreated : Nat
  dateModified : Nat
  notes : Option String
  isFavorite : Bool
deriving DecidableEq, Repr

/-- The store state: `RecipeData` and `RecipeUIState` combined
(the actions are modelled as functions below). -/
structure RecipeStore where
  recipes : List Recipe
  selectedRecipeId : Option String
  isEditing : Bool
  isCreating : Bool
  searchTerm : String
  filterCategory : Option String
  isLoading : Bool
deriving DecidableEq, Repr

/-- The initial state of the store (lines 154-163 of the source). -/
def initialState : RecipeStore :=
  { recipes := []
    selectedRecipeId := none
    isEditing := false
    isCreating := false
    searchTerm := ""
    filterCategory := none
    isLoading := false }

/-- `Omit<Recipe, "id" | "dateCreated" | "dateModified">`:
the argument type of `createRecipe`. -/
structure RecipeInput where
  title : String
  description : String
  ingredients : List Ingredient
  instructions : List Instruction
  prepTime : Nat
  cookTime : Nat
  servings : Nat
  category : List String
  cuisine : String
  difficulty : Difficulty
  nutrition : Option Nutrition
  imageUrl : Option String
  author : String
  notes : Option String
  isFavorite : Bool
deriving DecidableEq, Repr

/-- `Partial<Recipe>`: every key optional (`none` = key absent). -/
structure RecipePatch where
  id : Option String
  title : Option String
  description : Option String
  ingredients : Option (List Ingredient)
  instructions : Option (List Instruction)
  prepTime : Option Nat
  cookTime : Option Nat
  servings : Option Nat
  category : Option (List String)
  cuisine : Option String
  difficulty : Option Difficulty
  nutrition : Option (Option Nutrition)
  imageUrl : Option (Option String)
  author : Option String
  dateCreated : Option Nat
  dateModified : Option Nat
  notes : Option (Option String)
  isFavorite : Option Bool
deriving DecidableEq, Repr

/-- The empty partial: no key present. -/
def RecipePatch.empty : RecipePatch :=
  { id := none, title := none, description := none, ingredients := none
    instructions := none, prepTime := none, cookTime := none, servings := none
    category := none, cuisine := none, difficulty := none, nutrition := none
    imageUrl := none, author := none, dateCreated := none, dateModified := none
    notes := none, isFavorite := none }

/-- The JS spread `{...recipe, ...recipeData}` for a `Partial<Recipe>`:
keys present in the partial override the recipe's fields. -/
def applyRecipePatch (r : Recipe) (p : RecipePatch) : Recipe :=
  { id := p.id.getD r.id
    title := p.title.getD r.title
    description := p.description.getD r.description
    ingredients := p.ingredients.getD r.ingredients
    instructions := p.instructions.getD r.instructions
    prepTime := p.prepTime.getD r.prepTime
    cookTime := p.cookTime.getD r.cookTime
    servings := p.servings.getD r.servings
    category := p.category.getD r.category
    cuisine := p.cuisine.getD r.cuisine
    difficulty := p.difficulty.getD r.difficulty
    nutrition := p.nutrition.getD r.nutrition
    imageUrl := p.imageUrl.getD r.imageUrl
    author := p.author.getD r.author
    dateCreated := p.dateCreated.getD r.dateCreated
    dateModified := p.dateModified.getD r.dateModified
    notes := p.notes.getD r.notes
    isFavorite := p.isFavorite.getD r.isFavorite }

/-- `Omit<Ingredient, "id">`: the argument of `addIngredient`. -/
structure IngredientInput where
  name : String
  amount : Int
  unit : String
  preparation : Option String
deriving DecidableEq, Repr

/-- `Partial<Ingredient>`. -/
structure IngredientPatch where
  id : Option String
  name : Option String
  amount : Option Int
  unit : Option String
  preparation : Option (Option String)
deriving DecidableEq, Repr

/-- The empty ingredient partial. -/
def IngredientPatch.empty : IngredientPatch :=
  { id := none, name := none, amount := none, unit := none, preparation := none }

/-- `{...ingredient, ...data}` for a `Partial<Ingredient>`. -/
def applyIngredientPatch (i : Ingredient) (p : IngredientPatch) : Ingredient :=
  { id := p.id.getD i.id
    name := p.name.getD i.name
    amount := p.amount.getD i.amount
    unit := p.unit.getD i.unit
    preparation := p.preparation.getD i.preparation }

/-- `Omit<Instruction, "id">`: the argument of `addInstruction`. -/
structure InstructionInput where
  stepNumber : Nat
  text : String
deriving DecidableEq, Repr

/-- `Partial<Instruction>`. -/
structure InstructionPatch where
  id : Option String
  stepNumber : Option Nat
  text : Option String
deriving DecidableEq, Repr

/-- The empty instruction partial. -/
def InstructionPatch.empty : InstructionPatch :=
  { id := none, stepNumber := none, text := none }

/-- `{...instruction, ...data}` for a `Partial<Instruction>`. -/
def applyInstructionPatch (i : Instruction) (p : InstructionPatch) : Instruction :=
  { id := p.id.getD i.id
    stepNumber := p.stepNumber.getD i.stepNumber
    text := p.text.getD i.text }

/-- The new recipe built by `createRecipe`:
`{ id: crypto.randomUUID(), dateCreated: now, dateModified: now, ...recipeData }`
(the generated id and the observed time are parameters). -/
def newRecipeOf (newId : String) (now : Nat) (d : RecipeInput) : Recipe :=
  { id := newId
    dateCreated := now
    dateModified := now
    title := d.title
    description := d.description
    ingredients := d.ingredients
    instructions := d.instructions
    prepTime := d.prepTime
    cookTime := d.cookTime
    servings := d.servings
    category := d.category
    cuisine := d.cuisine
    difficulty := d.difficulty
    nutrition := d.nutrition
    imageUrl := d.imageUrl
    author := d.author
    notes := d.notes
    isFavorite := d.isFavorite }

/-- `createRecipe` (lines 166-180): append the new recipe, select it,
clear the creating flag. -/
def createRecipe (newId : String) (now : Nat) (d : RecipeInput)
    (s : RecipeStore) : RecipeStore :=
  { s with
    recipes := s.recipes ++ [newRecipeOf newId now d]
    selectedRecipeId := some (newRecipeOf newId now d).id
    isCreating := false }

/-- `updateRecipe` (lines 182-194): merge the partial into the matching
recipe and refresh `dateModified` (the refresh comes after the merge). -/
def updateRecipe (id : String) (recipeData : RecipePatch) (now : Nat)
    (s : RecipeStore) : RecipeStore :=
  { s with
    recipes := s.recipes.map fun recipe =>
      if recipe.id = id then
        { applyRecipePatch recipe recipeData with dateModified := now }
      else recipe }

/-- `deleteRecipe` (lines 196-202): drop the matching recipe; clear the
selection if it pointed at the deleted id. -/
def deleteRecipe (id : String) (s : RecipeStore) : RecipeStore :=
  { s with
    recipes := s.recipes.filter fun recipe => recipe.id ≠ id
    selectedRecipeId :=
      if s.selectedRecipeId = some id then none else s.selectedRecipeId }

/-- `addIngredient` (lines 205-222). -/
def addIngredient (recipeId newId : String) (d : IngredientInput) (now : Nat)
    (s : RecipeStore) : RecipeStore :=
  { s with
    recipes := s.recipes.map fun recipe =>
      if recipe.id = recipeId then
        { recipe with
          ingredients := recipe.ingredients ++
            [{ id := newId, name := d.name, amount := d.amount
               unit := d.unit, preparation := d.preparation }]
          dateModified := now }
      else recipe }

/-- `updateIngredient` (lines 224-240). -/
def updateIngredient (recipeId ingredientId : String) (data : IngredientPatch)
    (now : Nat) (s : RecipeStore) : RecipeStore :=
  { s with
    recipes := s.recipes.map fun recipe =>
      if recipe.id = recipeId then
        { recipe with
          ingredients := recipe.ingredients.map fun ingredient =>
            if ingredient.id = ingredientId then
              applyIngredientPatch ingredient data
            else ingredient
          dateModified := now }
      else recipe }

/-- `removeIngredient` (lines 242-256). -/
def removeIngredient (recipeId ingredientId : String) (now : Nat)
    (s : RecipeStore) : RecipeStore :=
  { s with
    recipes := s.recipes.map fun recipe =>
      if recipe.id = recipeId then
        { recipe with
          ingredients := recipe.ingredients.filter fun ingredient =>
            ingredient.id ≠ ingredientId
          dateModified := now }
      else recipe }

/-- `addInstruction` (lines 259-276). -/
def addInstruction (recipeId newId : String) (d : InstructionInput) (now : Nat)
    (s : RecipeStore) : RecipeStore :=
  { s with
    recipes := s.recipes.map fun recipe =>
      if recipe.id = recipeId then
        { recipe with
          instructions := recipe.instructions ++
            [{ id := newId, stepNumber := d.stepNumber, text := d.text }]
          dateModified := now }
      else recipe }

/-- `updateInstruction` (lines 278-294). -/
def updateInstruction (recipeId instructionId : String) (data : InstructionPatch)
    (now : Nat) (s : RecipeStore) : RecipeStore :=
  { s with
    recipes := s.recipes.map fun recipe =>
      if recipe.id = recipeId then
        { recipe with
          instructions := recipe.instructions.map fun instruction =>
            if instruction.id = instructionId then
              applyInstructionPatch instruction data
            else instruction
          dateModified := now }
      else recipe }

/-- `removeInstruction` (lines 296-310). -/
def removeInstruction (recipeId instructionId : String) (now : Nat)
    (s : RecipeStore) : RecipeStore :=
  { s with
    recipes := s.recipes.map fun recipe =>
      if recipe.id = recipeId then
        { recipe with
          instructions := recipe.instructions.filter fun instruction =>
            instruction.id ≠ instructionId
          dateModified := now }
      else recipe }

/-- `selectRecipe` (lines 313-318): set the selection (no validation) and
leave edit mode. -/
def selectRecipe (id : Option String) (s : RecipeStore) : RecipeStore :=
  { s with selectedRecipeId := id, isEditing := false }

/-- `startEditing` (lines 320-322). -/
def startEditing (s : RecipeStore) : RecipeStore :=
  { s with isEditing := true }

/-- `finishEditing` (lines 324-326). -/
def finishEditing (s : RecipeStore) : RecipeStore :=
  { s with isEditing := false }

/-- `startCreating` (lines 328-333): set the creating flag, clear selection. -/
def startCreating (s : RecipeStore) : RecipeStore :=
  { s with isCreating := true, selectedRecipeId := none }

/-- `cancelCreating` (lines 335-337). -/
def cancelCreating (s : RecipeStore) : RecipeStore :=
  { s with isCreating := false }

/-- `setSearchTerm` (lines 339-341). -/
def setSearchTerm (term : String) (s : RecipeStore) : RecipeStore :=
  { s with searchTerm := term }

/-- `setFilterCategory` (lines 343-345). -/
def setFilterCategory (category : Option String) (s : RecipeStore) : RecipeStore :=
  { s with filterCategory := category }

/-- `toggleFavorite` (lines 348-360): flip the flag, refresh `dateModified`. -/
def toggleFavorite (id : String) (now : Nat) (s : RecipeStore) : RecipeStore :=
  { s with
    recipes := s.recipes.map fun recipe =>
      if recipe.id = id then
        { recipe with isFavorite := !recipe.isFavorite, dateModified := now }
      else recipe }

/-- JS `String.prototype.toLowerCase`, character by character. -/
def jsToLower (s : String) : String :=
  String.map Char.toLower s

/-- JS `String.prototype.includes`: substring containment. -/
def jsIncludes (hay needle : String) : Bool :=
  hay.toList.tails.any fun t => needle.toList.isPrefixOf t

/-- `getSelectedRecipe` (lines 372-375); the guard is JS truthiness of
`selectedRecipeId`, so a `null` or empty-string selection short-circuits. -/
def getSelectedRecipe (s : RecipeStore) : Option Recipe :=
  match s.selectedRecipeId with
  | none => none
  | some id =>
      if id = "" then none
      else s.recipes.find? fun r => r.id = id

/-- `getFilteredRecipes` (lines 377-398): the search filter applies when
`searchTerm` is truthy (non-empty), the category filter when
`filterCategory` is truthy (non-`null` and non-empty). -/
def getFilteredRecipes (s : RecipeStore) : List Recipe :=
  let filtered := s.recipes
  let filtered :=
    if s.searchTerm ≠ "" then
      let term := jsToLower s.searchTerm
      filtered.filter fun recipe =>
        jsIncludes (jsToLower recipe.title) term ||
        jsIncludes (jsToLower recipe.description) term
    else filtered
  match s.filterCategory with
  | some c => if c ≠ "" then filtered.filter (fun recipe => recipe.category.contains c) else filtered
  | none => filtered

/-- One call to a store action, with the nondeterministic inputs
(generated ids, observed wall-clock times) made explicit. -/
inductive StoreAction where
  | createRecipe (newId : String) (now : Nat) (d : RecipeInput)
  | updateRecipe (id : String) (p : RecipePatch) (now : Nat)
  | deleteRecipe (id : String)
  | addIngredient (recipeId newId : String) (d : IngredientInput) (now : Nat)
  | updateIngredient (recipeId ingredientId : String) (p : IngredientPatch) (now : Nat)
  | removeIngredient (recipeId ingredientId : String) (now : Nat)
  | addInstruction (recipeId newId : String) (d : InstructionInput) (now : Nat)
  | updateInstruction (recipeId instructionId : String) (p : InstructionPatch) (now : Nat)
  | removeInstruction (recipeId instructionId : String) (now : Nat)
  | selectRecipe (id : Option String)
  | startEditing
  | finishEditing
  | startCreating
  | cancelCreating
  | setSearchTerm (term : String)
  | setFilterCategory (category : Option String)
  | toggleFavorite (id : String) (now : Nat)
deriving DecidableEq, Repr

/-- Dispatch an action to the corresponding store operation. -/
def applyAction : StoreAction → RecipeStore → RecipeStore
  | .createRecipe newId now d, s => createRecipe newId now d s
  | .updateRecipe id p now, s => updateRecipe id p now s
  | .deleteRecipe id, s => deleteRecipe id s
  | .addIngredient rid nid d now, s => addIngredient rid nid d now s
  | .updateIngredient rid iid p now, s => updateIngredient rid iid p now s
  | .removeIngredient rid iid now, s => removeIngredient rid iid now s
  | .addInstruction rid nid d now, s => addInstruction rid nid d now s
  | .updateInstruction rid iid p now, s => updateInstruction rid iid p now s
  | .removeInstruction rid iid now, s => removeInstruction rid iid now s
  | .selectRecipe id, s => selectRecipe id s
  | .startEditing, s => startEditing s
  | .finishEditing, s => finishEditing s
  | .startCreating, s => startCreating s
  | .cancelCreating, s => cancelCreating s
  | .setSearchTerm t, s => setSearchTerm t s
  | .setFilterCategory c, s => setFilterCategory c s
  | .toggleFavorite id now, s => toggleFavorite id now s

/-- Run a sequence of store actions from a state. -/
def runActions : RecipeStore → List StoreAction → RecipeStore
  | s, [] => s
  | s, a :: as => runActions (applyAction a s) as

/-- States reachable from the initial state by store operations with
arbitrary arguments. -/
inductive Reachable : RecipeStore → Prop
  | init : Reachable initialState
  | next {s : RecipeStore} (a : StoreAction) : Reachable s → Reachable (applyAction a s)

/-- The wall-clock time an action observes (`new Date()`), if it reads
the clock. -/
def actionTime : StoreAction → Option Nat
  | .createRecipe _ now _ => some now
  | .updateRecipe _ _ now => some now
  | .addIngredient _ _ _ now => some now
  | .updateIngredient _ _ _ now => some now
  | .removeIngredient _ _ now => some now
  | .addInstruction _ _ _ now => some now
  | .updateInstruction _ _ _ now => some now
  | .removeInstruction _ _ now => some now
  | .toggleFavorite _ now => some now
  | _ => none

/-- For the eight per-recipe mutations: the targeted recipe id and the
observed call time. -/
def mutTarget : StoreAction → Option (String × Nat)
  | .updateRecipe id _ now => some (id, now)
  | .addIngredient rid _ _ now => some (rid, now)
  | .updateIngredient rid _ _ now => some (rid, now)
  | .removeIngredient rid _ now => some (rid, now)
  | .addInstruction rid _ _ now => some (rid, now)
  | .updateInstruction rid _ _ now => some (rid, now)
  | .removeInstruction rid _ now => some (rid, now)
  | .toggleFavorite id now => some (id, now)
  | _ => none

/-- A concrete creation input used by witnesses. -/
def sampleInput : RecipeInput :=
  { title := "Apple Pie"
    description := "A classic pie"
    ingredients := []
    instructions := []
    prepTime := 10
    cookTime := 20
    servings := 4
    category := ["Dessert"]
    cuisine := "American"
    difficulty := Difficulty.easy
    nutrition := none
    imageUrl := none
    author := "ada"
    notes := none
    isFavorite := false }

/-- The recipe `createRecipe` builds from `sampleInput` at time 0 with id "a". -/
def sampleRecipe : Recipe := newRecipeOf "a" 0 sampleInput

/-- A concrete store holding `sampleRecipe`, reached by one `createRecipe`. -/
def sampleStore : RecipeStore := createRecipe "a" 0 sampleInput initialState

/-- Mapping a function that fixes every element of a list is the identity. -/
theorem map_if_neg_eq_self {α : Type} {l : List α} {c : α → Prop} [DecidablePred c]
    {g : α → α} (h : ∀ x ∈ l, ¬ c x) :
    (l.map fun x => if c x then g x else x) = l := by
  have h2 : ∀ x ∈ l, (if c x then g x else x) = id x := by
    intro x hx
    simp [if_neg (h x hx)]
  rw [List.map_congr_left h2, List.map_id]

/-- C1: for every creation input (which, by its type, omits `id`,
`dateCreated` and `dateModified`), `createRecipe` appends exactly one new
recipe; assuming the generated id (a fresh `crypto.randomUUID()`) differs
from every pre-existing recipe id, the new recipe's id is distinct from all
of them; its `dateCreated` equals its `dateModified`; it becomes the
selected recipe; the creating flag is cleared; and every pre-existing
recipe is still present, unchanged, as the prefix of the new collection. -/
theorem createRecipe_appends_fresh_selected (newId : String) (now : Nat)
    (d : RecipeInput) (s : RecipeStore)
    (hfresh : ∀ r ∈ s.recipes, r.id ≠ newId) :
    (createRecipe newId now d s).recipes = s.recipes ++ [newRecipeOf newId now d]
    ∧ (createRecipe newId now d s).recipes.length = s.recipes.length + 1
    ∧ (newRecipeOf newId now d).dateCreated = (newRecipeOf newId now d).dateModified
    ∧ (∀ r ∈ s.recipes, r.id ≠ (newRecipeOf newId now d).id)
    ∧ (createRecipe newId now d s).selectedRecipeId = some (newRecipeOf newId now d).id
    ∧ (createRecipe newId now d s).isCreating = false
    ∧ (createRecipe newId now d s).recipes.take s.recipes.length = s.recipes := by
  refine ⟨rfl, by simp [createRecipe], rfl, hfresh, rfl, rfl, ?_⟩
  simp [createRecipe]

/-- Witness for C1 at a concrete input. -/
theorem createRecipe_appends_fresh_selected_concrete :
    (createRecipe "a" 0 sampleInput initialState).selectedRecipeId
      = some (newRecipeOf "a" 0 sampleInput).id
    ∧ (createRecipe "a" 0 sampleInput initialState).isCreating = false
    ∧ (createRecipe "a" 0 sampleInput initialState).recipes.length
      = initialState.recipes.length + 1 :=
  ⟨(createRecipe_appends_fresh_selected "a" 0 sampleInput initialState (by decide)).2.2.2.2.1,
   (createRecipe_appends_fresh_selected "a" 0 sampleInput initialState (by decide)).2.2.2.2.2.1,
   (createRecipe_appends_fresh_selected "a" 0 sampleInput initialState (by decide)).2.1⟩

/-- C7: `deleteRecipe id` removes exactly the recipes whose id equals `id`;
the selection is cleared when it pointed at `id` and kept otherwise, and
no other state field changes. -/
theorem deleteRecipe_removes_matching_and_clears_selection (id : String)
    (s : RecipeStore) :
    ((deleteRecipe id s).recipes = s.recipes.filter fun r => r.id ≠ id)
    ∧ (∀ r ∈ (deleteRecipe id s).recipes, r ∈ s.recipes ∧ r.id ≠ id)
    ∧ (∀ r ∈ s.recipes, r.id ≠ id → r ∈ (deleteRecipe id s).recipes)
    ∧ (s.selectedRecipeId = some id → (deleteRecipe id s).selectedRecipeId = none)
    ∧ (s.selectedRecipeId ≠ some id →
        (deleteRecipe id s).selectedRecipeId = s.selectedRecipeId) := by
  refine ⟨rfl, ?_, ?_, ?_, ?_⟩
  · intro r hr
    have h := List.mem_filter.mp hr
    refine ⟨h.1, ?_⟩
    simpa using h.2
  · intro r hr hne
    exact List.mem_filter.mpr ⟨hr, by simpa using hne⟩
  · intro h
    simp [deleteRecipe, h]
  · intro h
    simp [deleteRecipe, h]

/-- Witness for C7 at concrete inputs: deleting the selected id clears the
selection; deleting an unrelated id keeps it. -/
theorem deleteRecipe_selection_concrete :
    (deleteRecipe "a" sampleStore).selectedRecipeId = none
    ∧ (deleteRecipe "zzz" sampleStore).selectedRecipeId = sampleStore.selectedRecipeId :=
  ⟨(deleteRecipe_removes_matching_and_clears_selection "a" sampleStore).2.2.2.1 rfl,
   (deleteRecipe_removes_matching_and_clears_selection "zzz" sampleStore).2.2.2.2 (by decide)⟩

/-- C8: `toggleFavorite` is its own inverse up to `dateModified`: applying
it twice with the same id (observing times `t1` then `t2`) yields the
original state except that each matching recipe's `dateModified` is now
`t2`; in particular every matching recipe's `isFavorite` is back to its
original value, every other recipe is untouched, and the rest of the state
is the original. (Stated for every id; a fortiori for ids present in the
collection, as the claim has it.) -/
theorem toggleFavorite_involutive_up_to_dateModified (id : String)
    (t1 t2 : Nat) (s : RecipeStore) :
    toggleFavorite id t2 (toggleFavorite id t1 s)
      = { s with recipes := s.recipes.map fun r =>
            if r.id = id then { r with dateModified := t2 } else r } := by
  simp only [toggleFavorite]
  congr 1
  rw [List.map_map]
  apply List.map_congr_left
  intro r _
  by_cases h : r.id = id
  · simp [Function.comp, h, Bool.not_not]
  · simp [Function.comp, h]

/-- C9: after `updateRecipe`, the matched recipe's `dateModified` is the
time observed by the call, for every partial — including partials that
themselves contain a `dateModified` key — because the source applies the
refresh after spreading the partial. -/
theorem updateRecipe_dateModified_wins (id : String) (p : RecipePatch)
    (now : Nat) (s : RecipeStore) (i : Nat) (h1 : i < s.recipes.length)
    (h2 : i < (updateRecipe id p now s).recipes.length)
    (hid : (s.recipes.get ⟨i, h1⟩).id = id) :
    ((updateRecipe id p now s).recipes.get ⟨i, h2⟩).dateModified = now := by
  have hmap : (updateRecipe id p now s).recipes
      = s.recipes.map fun recipe =>
          if recipe.id = id then
            { applyRecipePatch recipe p with dateModified := now }
          else recipe := rfl
  simp only [List.get_eq_getElem] at hid ⊢
  simp [hmap, List.getElem_map, hid]

/-- A partial that tries to smuggle in a `dateModified` value. -/
def smuggledPatch : RecipePatch :=
  { RecipePatch.empty with dateModified := some 9999 }

/-- Witness for C9: a partial carrying `dateModified = 9999` still yields
the call time 5. -/
theorem updateRecipe_dateModified_wins_concrete :
    ((updateRecipe "a" smuggledPatch 5 sampleStore).recipes.get
        ⟨0, by decide⟩).dateModified = 5 :=
  updateRecipe_dateModified_wins "a" smuggledPatch 5 sampleStore 0
    (by decide) (by decide) (by decide)

/-- C2 counterexample: `sampleRecipe` (id "a") has no ingredients at all,
so the ingredient id "x" is certainly not present in it; yet
`updateIngredient "a" "x"` is not a no-op — it refreshes the recipe's
`dateModified` (from 0 to 1), because the source bumps `dateModified`
whenever the recipe id matches, regardless of whether the inner map found
the ingredient. -/
theorem updateIngredient_missing_still_bumps :
    sampleStore.recipes = [sampleRecipe]
    ∧ sampleRecipe.ingredients = []
    ∧ (updateIngredient "a" "x" IngredientPatch.empty 1 sampleStore).recipes
        = [{ sampleRecipe with dateModified := 1 }]
    ∧ updateIngredient "a" "x" IngredientPatch.empty 1 sampleStore ≠ sampleStore := by
  refine ⟨rfl, rfl, by decide, by decide⟩

/-- The state transformation the four sub-entity operations actually
perform when the sub-entity id is absent: the matching recipe's
`dateModified` is refreshed and nothing else changes. -/
def bumpOnly (rid : String) (now : Nat) (s : RecipeStore) : RecipeStore :=
  { s with recipes := s.recipes.map fun r =>
      if r.id = rid then { r with dateModified := now } else r }

/-- C2 (amended): for a recipe present in the collection, if the given
ingredient id is not present in that recipe's ingredient list then
`updateIngredient` and `removeIngredient` leave every ingredient and
instruction list, every other recipe, the selection and all UI flags
unchanged — but they do NOT leave the matching recipe's `dateModified`
unchanged: each is exactly `bumpOnly`, refreshing the matching recipe's
`dateModified` to the call time; and, independently, the same for
`updateInstruction` and `removeInstruction` when the given instruction id
is not present in that recipe's instruction list. Each hypothesis is
per-list: the ingredient conclusions need nothing about the instruction
list and vice versa. -/
theorem subentity_missing_ops_only_bump (rid sub : String) (p : IngredientPatch)
    (q : InstructionPatch) (now : Nat) (s : RecipeStore) :
    ((∀ r ∈ s.recipes, r.id = rid → ∀ i ∈ r.ingredients, i.id ≠ sub) →
      updateIngredient rid sub p now s = bumpOnly rid now s
      ∧ removeIngredient rid sub now s = bumpOnly rid now s)
    ∧ ((∀ r ∈ s.recipes, r.id = rid → ∀ i ∈ r.instructions, i.id ≠ sub) →
      updateInstruction rid sub q now s = bumpOnly rid now s
      ∧ removeInstruction rid sub now s = bumpOnly rid now s) := by
  refine ⟨fun hing => ⟨?_, ?_⟩, fun hins => ⟨?_, ?_⟩⟩
  · simp only [updateIngredient, bumpOnly]
    congr 1
    apply List.map_congr_left
    intro r hr
    by_cases h : r.id = rid
    · have hmap := map_if_neg_eq_self (g := fun i => applyIngredientPatch i p)
        (hing r hr h)
      simp [h, hmap]
    · simp [h]
  · simp only [removeIngredient, bumpOnly]
    congr 1
    apply List.map_congr_left
    intro r hr
    by_cases h : r.id = rid
    · simp only [if_pos h]
      have hfil : (r.ingredients.filter fun i => i.id ≠ sub) = r.ingredients :=
        List.filter_eq_self.mpr fun i hi => by simpa using hing r hr h i hi
      rw [hfil]
    · simp [h]
  · simp only [updateInstruction, bumpOnly]
    congr 1
    apply List.map_congr_left
    intro r hr
    by_cases h : r.id = rid
    · have hmap := map_if_neg_eq_self (g := fun i => applyInstructionPatch i q)
        (hins r hr h)
      simp [h, hmap]
    · simp [h]
  · simp only [removeInstruction, bumpOnly]
    congr 1
    apply List.map_congr_left
    intro r hr
    by_cases h : r.id = rid
    · simp only [if_pos h]
      have hfil : (r.instructions.filter fun i => i.id ≠ sub) = r.instructions :=
        List.filter_eq_self.mpr fun i hi => by simpa using hins r hr h i hi
      rw [hfil]
    · simp [h]

/-- `sampleStore` after adding an instruction with id "x" to recipe "a":
its recipe has an instruction named "x" but no ingredient named "x". -/
def mixedIdStore : RecipeStore :=
  addInstruction "a" "x" { stepNumber := 1, text := "stir" } 0 sampleStore

/-- Witness for the amended C2: the ingredient conclusion applies to
`mixedIdStore` with sub-id "x" even though "x" IS the id of one of the
recipe's instructions (only the ingredient list matters), and the
instruction conclusion applies to `sampleStore`. -/
theorem subentity_missing_ops_only_bump_concrete :
    updateIngredient "a" "x" IngredientPatch.empty 2 mixedIdStore
      = bumpOnly "a" 2 mixedIdStore
    ∧ removeInstruction "a" "x" 1 sampleStore = bumpOnly "a" 1 sampleStore :=
  ⟨((subentity_missing_ops_only_bump "a" "x" IngredientPatch.empty
      InstructionPatch.empty 2 mixedIdStore).1 (by decide)).1,
   ((subentity_missing_ops_only_bump "a" "x" IngredientPatch.empty
      InstructionPatch.empty 1 sampleStore).2 (by decide)).2⟩

/-- A store with a dangling selection, reached from the initial state by a
single `selectRecipe` call (the source performs no validation there). -/
def danglingStore : RecipeStore := selectRecipe (some "x") initialState

/-- C5 counterexample: "x" is not the id of any recipe in `danglingStore`
(its collection is empty), yet `deleteRecipe "x"` does change the state —
it clears the (dangling) selection. So "every operation called with an
absent id leaves the entire state unchanged" is false as stated. -/
theorem deleteRecipe_absent_id_changes_state :
    danglingStore.recipes = []
    ∧ danglingStore.selectedRecipeId = some "x"
    ∧ (deleteRecipe "x" danglingStore).selectedRecipeId = none
    ∧ deleteRecipe "x" danglingStore ≠ danglingStore := by
  refine ⟨rfl, rfl, by decide, by decide⟩

/-- C5 (amended): all operations are total Lean functions of the state
(nothing fails or throws), and for an id matching no recipe in the
collection, `updateRecipe`, `toggleFavorite` and all six
ingredient/instruction operations leave the entire state unchanged;
`deleteRecipe` leaves the collection unchanged and leaves the entire state
unchanged whenever the selection does not (danglingly) equal that id — if
it does, the only change is that the selection is cleared. -/
theorem absent_recipe_id_ops_noop (id : String) (s : RecipeStore)
    (h : ∀ r ∈ s.recipes, r.id ≠ id) :
    (∀ p now, updateRecipe id p now s = s)
    ∧ (∀ now, toggleFavorite id now s = s)
    ∧ (∀ nid d now, addIngredient id nid d now s = s)
    ∧ (∀ sub p now, updateIngredient id sub p now s = s)
    ∧ (∀ sub now, removeIngredient id sub now s = s)
    ∧ (∀ nid d now, addInstruction id nid d now s = s)
    ∧ (∀ sub p now, updateInstruction id sub p now s = s)
    ∧ (∀ sub now, removeInstruction id sub now s = s)
    ∧ (deleteRecipe id s).recipes = s.recipes
    ∧ (s.selectedRecipeId ≠ some id → deleteRecipe id s = s)
    ∧ (s.selectedRecipeId = some id →
        deleteRecipe id s = { s with selectedRecipeId := none }) := by
  have hfil : (s.recipes.filter fun r => r.id ≠ id) = s.recipes :=
    List.filter_eq_self.mpr fun r hr => by simpa using h r hr
  refine ⟨?_, ?_, ?_, ?_, ?_, ?_, ?_, ?_, ?_, ?_, ?_⟩
  · intro p now
    simp only [updateRecipe]
    rw [map_if_neg_eq_self h]
  · intro now
    simp only [toggleFavorite]
    rw [map_if_neg_eq_self h]
  · intro nid d now
    simp only [addIngredient]
    rw [map_if_neg_eq_self h]
  · intro sub p now
    simp only [updateIngredient]
    rw [map_if_neg_eq_self h]
  · intro sub now
    simp only [removeIngredient]
    rw [map_if_neg_eq_self h]
  · intro nid d now
    simp only [addInstruction]
    rw [map_if_neg_eq_self h]
  · intro sub p now
    simp only [updateInstruction]
    rw [map_if_neg_eq_self h]
  · intro sub now
    simp only [removeInstruction]
    rw [map_if_neg_eq_self h]
  · simp only [deleteRecipe]
    rw [hfil]
  · intro hsel
    simp only [deleteRecipe]
    rw [hfil, if_neg hsel]
  · intro hsel
    simp only [deleteRecipe]
    rw [hfil, if_pos hsel]

/-- Witness for the amended C5 at a concrete input: "zzz" matches no
recipe in `sampleStore`, and the operations are no-ops there. -/
theorem absent_recipe_id_ops_noop_concrete :
    updateRecipe "zzz" RecipePatch.empty 7 sampleStore = sampleStore
    ∧ toggleFavorite "zzz" 7 sampleStore = sampleStore
    ∧ deleteRecipe "zzz" sampleStore = sampleStore :=
  ⟨(absent_recipe_id_ops_noop "zzz" sampleStore (by decide)).1 RecipePatch.empty 7,
   (absent_recipe_id_ops_noop "zzz" sampleStore (by decide)).2.1 7,
   (absent_recipe_id_ops_noop "zzz" sampleStore (by decide)).2.2.2.2.2.2.2.2.2.1
     (by decide)⟩

/-- Whether the (lowercased) search term occurs in a recipe's lowercased
title or description — the body of the source's search filter. -/
def searchHit (term : String) (r : Recipe) : Bool :=
  jsIncludes (jsToLower r.title) (jsToLower term) ||
  jsIncludes (jsToLower r.description) (jsToLower term)

/-- The per-recipe predicate `getFilteredRecipes` actually implements:
the search conjunct as the claim states it, and the category conjunct
weakened by JS truthiness — the category filter is skipped when
`filterCategory` is `null` OR the empty string. -/
def filterPred (s : RecipeStore) (r : Recipe) : Bool :=
  (decide (s.searchTerm = "") || searchHit s.searchTerm r)
  && (match s.filterCategory with
      | none => true
      | some c => decide (c = "") || r.category.contains c)

/-- `sampleStore` with the category filter set to the empty string. -/
def emptyCatFilterStore : RecipeStore :=
  { sampleStore with filterCategory := some "" }

/-- C6 counterexample: with `filterCategory = some ""` (non-null) and an
empty search term, the claim says a recipe is returned only if `""` is a
member of its category list; `sampleRecipe`'s categories are
`["Dessert"]`, so the claim predicts it is filtered out — but the code
returns it, because the empty string is falsy and the category filter is
skipped entirely. -/
theorem getFilteredRecipes_empty_category_escapes :
    emptyCatFilterStore.searchTerm = ""
    ∧ emptyCatFilterStore.filterCategory = some ""
    ∧ sampleRecipe.category.contains "" = false
    ∧ getFilteredRecipes emptyCatFilterStore = [sampleRecipe] := by
  refine ⟨rfl, rfl, by decide, by decide⟩

/-- C6 (amended): `getFilteredRecipes` returns exactly the recipes
satisfying the conjunctive predicate `filterPred` — case-insensitive
substring match of the search term against title or description when the
search term is non-empty, intersected with category membership when
`filterCategory` is non-null AND non-empty (JS truthiness; the empty
string disables the category filter) — in the collection's order; with an
empty search term and a null category filter it returns the full
collection in original order. -/
theorem getFilteredRecipes_eq_filter (s : RecipeStore) :
    getFilteredRecipes s = s.recipes.filter (filterPred s)
    ∧ (s.searchTerm = "" → s.filterCategory = none →
        getFilteredRecipes s = s.recipes) := by
  constructor
  · by_cases hst : s.searchTerm = ""
    · rcases hcat : s.filterCategory with _ | c
      · simp only [getFilteredRecipes, hst, hcat]
        simp only [ne_eq, not_true_eq_false, if_false]
        exact (List.filter_eq_self.mpr fun r hr => by
          simp [filterPred, hst, hcat]).symm
      · by_cases hc : c = ""
        · simp only [getFilteredRecipes, hst, hcat, hc]
          simp only [ne_eq, not_true_eq_false, if_false]
          exact (List.filter_eq_self.mpr fun r hr => by
            simp [filterPred, hst, hcat, hc]).symm
        · simp only [getFilteredRecipes, hst, hcat]
          simp only [ne_eq, not_true_eq_false, if_false, hc, if_true,
            not_false_eq_true, if_pos]
          exact List.filter_congr fun r hr => by
            simp [filterPred, hst, hcat, hc]
    · rcases hcat : s.filterCategory with _ | c
      · simp only [getFilteredRecipes, hcat]
        rw [if_pos hst]
        exact List.filter_congr fun r hr => by
          simp [filterPred, searchHit, hst, hcat]
      · by_cases hc : c = ""
        · simp only [getFilteredRecipes, hcat, hc]
          rw [if_pos hst]
          simp only [ne_eq, not_true_eq_false, if_false]
          exact List.filter_congr fun r hr => by
            simp [filterPred, searchHit, hst, hcat, hc]
        · simp only [getFilteredRecipes, hcat]
          rw [if_pos hst, if_pos hc]
          rw [List.filter_filter]
          exact List.filter_congr fun r hr => by
            simp [filterPred, searchHit, hst, hcat, hc, Bool.and_comm]
  · intro hst hcat
    simp [getFilteredRecipes, hst, hcat]

/-- Witness for the amended C6: with empty search term and null category
filter the full collection comes back. -/
theorem getFilteredRecipes_eq_filter_concrete :
    getFilteredRecipes sampleStore = sampleStore.recipes :=
  (getFilteredRecipes_eq_filter sampleStore).2 rfl rfl

/-- Frame property of a per-recipe mutation targeting `rid`: state `t`
agrees with `s` on every field but `recipes`, keeps the collection's
length, and keeps every recipe whose id is not `rid` unchanged in place. -/
def FrameOn (s t : RecipeStore) (rid : String) : Prop :=
  t.selectedRecipeId = s.selectedRecipeId
  ∧ t.isEditing = s.isEditing
  ∧ t.isCreating = s.isCreating
  ∧ t.searchTerm = s.searchTerm
  ∧ t.filterCategory = s.filterCategory
  ∧ t.isLoading = s.isLoading
  ∧ t.recipes.length = s.recipes.length
  ∧ ∀ (i : Nat) (h1 : i < s.recipes.length) (h2 : i < t.recipes.length),
      (s.recipes.get ⟨i, h1⟩).id ≠ rid →
      t.recipes.get ⟨i, h2⟩ = s.recipes.get ⟨i, h1⟩

/-- Every guarded map over the collection satisfies the frame property. -/
theorem frameOn_guard_map (s : RecipeStore) (rid : String) (g : Recipe → Recipe) :
    FrameOn s
      { s with recipes := s.recipes.map fun r => if r.id = rid then g r else r }
      rid := by
  refine ⟨rfl, rfl, rfl, rfl, rfl, rfl, by simp, ?_⟩
  intro i h1 h2 hne
  simp only [List.get_eq_getElem] at hne ⊢
  simp [List.getElem_map, if_neg hne]

/-- C10: each of the eight per-recipe mutations (`updateRecipe`,
`toggleFavorite`, `addIngredient`, `updateIngredient`, `removeIngredient`,
`addInstruction`, `updateInstruction`, `removeInstruction`) leaves every
recipe other than the one matching the given recipe id unchanged (in
place), and leaves `selectedRecipeId`, `isEditing`, `isCreating`,
`searchTerm`, `filterCategory` and `isLoading` unchanged. -/
theorem per_recipe_mutations_frame (a : StoreAction) (rid : String) (now : Nat)
    (s : RecipeStore) (hmt : mutTarget a = some (rid, now)) :
    FrameOn s (applyAction a s) rid := by
  cases a with
  | updateRecipe id p now2 =>
      simp only [mutTarget, Option.some.injEq, Prod.mk.injEq] at hmt
      obtain ⟨rfl, rfl⟩ := hmt
      exact frameOn_guard_map s id _
  | addIngredient rid2 nid d now2 =>
      simp only [mutTarget, Option.some.injEq, Prod.mk.injEq] at hmt
      obtain ⟨rfl, rfl⟩ := hmt
      exact frameOn_guard_map s rid2 _
  | updateIngredient rid2 sub p now2 =>
      simp only [mutTarget, Option.some.injEq, Prod.mk.injEq] at hmt
      obtain ⟨rfl, rfl⟩ := hmt
      exact frameOn_guard_map s rid2 _
  | removeIngredient rid2 sub now2 =>
      simp only [mutTarget, Option.some.injEq, Prod.mk.injEq] at hmt
      obtain ⟨rfl, rfl⟩ := hmt
      exact frameOn_guard_map s rid2 _
  | addInstruction rid2 nid d now2 =>
      simp only [mutTarget, Option.some.injEq, Prod.mk.injEq] at hmt
      obtain ⟨rfl, rfl⟩ := hmt
      exact frameOn_guard_map s rid2 _
  | updateInstruction rid2 sub p now2 =>
      simp only [mutTarget, Option.some.injEq, Prod.mk.injEq] at hmt
      obtain ⟨rfl, rfl⟩ := hmt
      exact frameOn_guard_map s rid2 _
  | removeInstruction rid2 sub now2 =>
      simp only [mutTarget, Option.some.injEq, Prod.mk.injEq] at hmt
      obtain ⟨rfl, rfl⟩ := hmt
      exact frameOn_guard_map s rid2 _
  | toggleFavorite id now2 =>
      simp only [mutTarget, Option.some.injEq, Prod.mk.injEq] at hmt
      obtain ⟨rfl, rfl⟩ := hmt
      exact frameOn_guard_map s id _
  | createRecipe nid now2 d => simp [mutTarget] at hmt
  | deleteRecipe id => simp [mutTarget] at hmt
  | selectRecipe id => simp [mutTarget] at hmt
  | startEditing => simp [mutTarget] at hmt
  | finishEditing => simp [mutTarget] at hmt
  | startCreating => simp [mutTarget] at hmt
  | cancelCreating => simp [mutTarget] at hmt
  | setSearchTerm t => simp [mutTarget] at hmt
  | setFilterCategory c => simp [mutTarget] at hmt

/-- Witness for C10 at a concrete mutation. -/
theorem per_recipe_mutations_frame_concrete :
    (applyAction (StoreAction.toggleFavorite "a" 5) sampleStore).selectedRecipeId
      = sampleStore.selectedRecipeId
    ∧ (applyAction (StoreAction.toggleFavorite "a" 5) sampleStore).recipes.length
      = sampleStore.recipes.length :=
  ⟨(per_recipe_mutations_frame (StoreAction.toggleFavorite "a" 5) "a" 5
      sampleStore rfl).1,
   (per_recipe_mutations_frame (StoreAction.toggleFavorite "a" 5) "a" 5
      sampleStore rfl).2.2.2.2.2.2.1⟩

/-- C4 counterexample: the source's `selectRecipe` stores any id without
validation, so a single store operation from the initial state yields a
dangling selection — `selectedRecipeId = some "x"` while the collection is
empty. -/
theorem selectRecipe_can_dangle :
    Reachable (applyAction (StoreAction.selectRecipe (some "x")) initialState)
    ∧ (applyAction (StoreAction.selectRecipe (some "x")) initialState).selectedRecipeId
        = some "x"
    ∧ (applyAction (StoreAction.selectRecipe (some "x")) initialState).recipes = [] :=
  ⟨Reachable.next _ Reachable.init, rfl, rfl⟩

/-- The selection invariant of the claim: `selectedRecipeId` is `null` or
the id of some recipe present in the collection. -/
def SelectionConsistent (s : RecipeStore) : Prop :=
  s.selectedRecipeId = none
  ∨ ∃ r ∈ s.recipes, some r.id = s.selectedRecipeId

/-- The argument restrictions under which the selection invariant is
preserved: `selectRecipe` is only called with `null` or an id present in
the current collection, and `updateRecipe` partials do not contain the
`id` key (the source lets a partial overwrite a recipe's id, which would
strand a selection pointing at the old id). -/
def selOk (s : RecipeStore) : StoreAction → Prop
  | .selectRecipe none => True
  | .selectRecipe (some id) => ∃ r ∈ s.recipes, r.id = id
  | .updateRecipe _ p _ => p.id = none
  | _ => True

/-- Reachability from the initial state by operations respecting `selOk`. -/
inductive ReachableSel : RecipeStore → Prop
  | init : ReachableSel initialState
  | next {s : RecipeStore} (a : StoreAction) :
      ReachableSel s → selOk s a → ReachableSel (applyAction a s)

/-- An id-preserving map over the collection preserves the selection
invariant. -/
theorem selWitness_map {l : List Recipe} {f : Recipe → Recipe}
    {sel : Option String} (hf : ∀ r ∈ l, (f r).id = r.id)
    (h : sel = none ∨ ∃ r ∈ l, some r.id = sel) :
    sel = none ∨ ∃ r ∈ l.map f, some r.id = sel := by
  rcases h with h | ⟨r, hr, hsel⟩
  · exact Or.inl h
  · exact Or.inr ⟨f r, List.mem_map.mpr ⟨r, hr, rfl⟩, by rw [hf r hr]; exact hsel⟩

/-- C4 (amended): in every state reachable from the initial state by store
operations in which `selectRecipe` is only given `null` or an id present
in the collection and `updateRecipe` partials do not contain the `id` key,
the selection is never dangling: `selectedRecipeId` is `null` or the id of
some recipe in the collection. (Without those restrictions the claim fails;
see the counterexample.) -/
theorem selection_never_dangling_restricted (s : RecipeStore)
    (hs : ReachableSel s) : SelectionConsistent s := by
  induction hs with
  | init => exact Or.inl rfl
  | next a hr hok ih =>
      rename_i s0
      cases a with
      | createRecipe nid now d =>
          right
          refine ⟨newRecipeOf nid now d, ?_, rfl⟩
          show newRecipeOf nid now d ∈ s0.recipes ++ [newRecipeOf nid now d]
          simp
      | updateRecipe id p now =>
          have hf : ∀ r ∈ s0.recipes,
              ((fun recipe =>
                if recipe.id = id then
                  { applyRecipePatch recipe p with dateModified := now }
                else recipe) r).id = r.id := by
            intro r _
            have hpid : p.id = none := hok
            by_cases h : r.id = id
            · simp [h, applyRecipePatch, hpid]
            · simp [h]
          exact selWitness_map hf ih
      | deleteRecipe did =>
          by_cases hsel : s0.selectedRecipeId = some did
          · left
            show (if s0.selectedRecipeId = some did then none
                  else s0.selectedRecipeId) = none
            rw [if_pos hsel]
          · rcases ih with h | ⟨r, hrr, hid⟩
            · left
              show (if s0.selectedRecipeId = some did then none
                    else s0.selectedRecipeId) = none
              rw [if_neg hsel]
              exact h
            · right
              have hne : r.id ≠ did := by
                intro contra
                exact hsel (by rw [← hid, contra])
              refine ⟨r, ?_, ?_⟩
              · show r ∈ s0.recipes.filter fun recipe => recipe.id ≠ did
                exact List.mem_filter.mpr ⟨hrr, by simpa using hne⟩
              · show some r.id = if s0.selectedRecipeId = some did then none
                    else s0.selectedRecipeId
                rw [if_neg hsel]
                exact hid
      | addIngredient rid nid d now =>
          refine selWitness_map ?_ ih
          intro r _
          by_cases h : r.id = rid <;> simp [h]
      | updateIngredient rid sub p now =>
          refine selWitness_map ?_ ih
          intro r _
          by_cases h : r.id = rid <;> simp [h]
      | removeIngredient rid sub now =>
          refine selWitness_map ?_ ih
          intro r _
          by_cases h : r.id = rid <;> simp [h]
      | addInstruction rid nid d now =>
          refine selWitness_map ?_ ih
          intro r _
          by_cases h : r.id = rid <;> simp [h]
      | updateInstruction rid sub p now =>
          refine selWitness_map ?_ ih
          intro r _
          by_cases h : r.id = rid <;> simp [h]
      | removeInstruction rid sub now =>
          refine selWitness_map ?_ ih
          intro r _
          by_cases h : r.id = rid <;> simp [h]
      | toggleFavorite id now =>
          refine selWitness_map ?_ ih
          intro r _
          by_cases h : r.id = id <;> simp [h]
      | selectRecipe oid =>
          cases oid with
          | none => exact Or.inl rfl
          | some id =>
              obtain ⟨r, hrr, hid⟩ := hok
              exact Or.inr ⟨r, hrr, by rw [hid]; rfl⟩
      | startEditing => exact ih
      | finishEditing => exact ih
      | startCreating => exact Or.inl rfl
      | cancelCreating => exact ih
      | setSearchTerm t => exact ih
      | setFilterCategory c => exact ih

/-- Witness for the amended C4: the state after one well-formed
`createRecipe` call is reachable under the restrictions and its selection
is consistent. -/
theorem selection_never_dangling_restricted_concrete :
    SelectionConsistent sampleStore :=
  selection_never_dangling_restricted sampleStore
    (ReachableSel.next (StoreAction.createRecipe "a" 0 sampleInput)
      ReachableSel.init trivial)

/-- A partial given to `updateRecipe` may contain the `dateCreated` key;
the restriction under which the date invariant is preserved is that it
does not. -/
def patchTimeOk : StoreAction → Prop
  | .updateRecipe _ p _ => p.dateCreated = none
  | _ => True

/-- The clock lower bound after an action: the time it observed, if any. -/
def nextBound (t : Nat) (a : StoreAction) : Nat := (actionTime a).getD t

/-- A call sequence is chronological from lower bound `t` when the
wall-clock times observed by successive calls never decrease, and no
`updateRecipe` partial contains `dateCreated`. -/
def ChronoFrom : Nat → List StoreAction → Prop
  | _, [] => True
  | t, a :: as => t ≤ nextBound t a ∧ patchTimeOk a ∧ ChronoFrom (nextBound t a) as

/-- Inductive invariant: every recipe has `dateCreated ≤ dateModified` and
both timestamps at most the clock bound `t`. -/
def TimeInv (t : Nat) (s : RecipeStore) : Prop :=
  ∀ r ∈ s.recipes, r.dateCreated ≤ r.dateModified ∧ r.dateModified ≤ t

/-- A guarded map whose branch keeps `dateCreated` and stamps
`dateModified := u` preserves the invariant when `t ≤ u`. -/
theorem timeInv_guard_map {t u : Nat} {s : RecipeStore} {rid : String}
    {g : Recipe → Recipe} (hinv : TimeInv t s) (htu : t ≤ u)
    (hg : ∀ r, (g r).dateCreated = r.dateCreated ∧ (g r).dateModified = u) :
    TimeInv u
      { s with recipes := s.recipes.map fun r => if r.id = rid then g r else r } := by
  intro r hr
  simp only [List.mem_map] at hr
  obtain ⟨r0, hr0, rfl⟩ := hr
  obtain ⟨h1, h2⟩ := hinv r0 hr0
  by_cases h : r0.id = rid
  · obtain ⟨hg1, hg2⟩ := hg r0
    rw [if_pos h, hg1, hg2]
    exact ⟨le_trans h1 (le_trans h2 htu), le_refl u⟩
  · rw [if_neg h]
    exact ⟨h1, le_trans h2 htu⟩

/-- One step preserves the timestamp invariant, advancing the bound to the
observed time. -/
theorem timeInv_step {t : Nat} {s : RecipeStore} (a : StoreAction)
    (hinv : TimeInv t s) (hok : patchTimeOk a) (hle : t ≤ nextBound t a) :
    TimeInv (nextBound t a) (applyAction a s) := by
  cases a with
  | createRecipe nid now d =>
      intro r hr
      have hr2 : r ∈ s.recipes ++ [newRecipeOf nid now d] := hr
      rcases List.mem_append.mp hr2 with h | h
      · obtain ⟨h1, h2⟩ := hinv r h
        exact ⟨h1, le_trans h2 hle⟩
      · rw [List.mem_singleton.mp h]
        exact ⟨le_refl now, le_refl now⟩
  | updateRecipe id p now =>
      have hpdc : p.dateCreated = none := hok
      refine timeInv_guard_map hinv hle ?_
      intro r
      constructor
      · show (applyRecipePatch r p).dateCreated = r.dateCreated
        simp [applyRecipePatch, hpdc]
      · rfl
  | deleteRecipe did =>
      intro r hr
      have hr2 : r ∈ s.recipes.filter fun recipe => recipe.id ≠ did := hr
      exact hinv r (List.mem_filter.mp hr2).1
  | addIngredient rid nid d now =>
      exact timeInv_guard_map hinv hle fun r => ⟨rfl, rfl⟩
  | updateIngredient rid sub p now =>
      exact timeInv_guard_map hinv hle fun r => ⟨rfl, rfl⟩
  | removeIngredient rid sub now =>
      exact timeInv_guard_map hinv hle fun r => ⟨rfl, rfl⟩
  | addInstruction rid nid d now =>
      exact timeInv_guard_map hinv hle fun r => ⟨rfl, rfl⟩
  | updateInstruction rid sub p now =>
      exact timeInv_guard_map hinv hle fun r => ⟨rfl, rfl⟩
  | removeInstruction rid sub now =>
      exact timeInv_guard_map hinv hle fun r => ⟨rfl, rfl⟩
  | toggleFavorite id now =>
      exact timeInv_guard_map hinv hle fun r => ⟨rfl, rfl⟩
  | selectRecipe oid => exact hinv
  | startEditing => exact hinv
  | finishEditing => exact hinv
  | startCreating => exact hinv
  | cancelCreating => exact hinv
  | setSearchTerm term => exact hinv
  | setFilterCategory c => exact hinv

/-- Running a chronological call sequence preserves the invariant, for
some final bound. -/
theorem timeInv_run (tr : List StoreAction) :
    ∀ (t : Nat) (s : RecipeStore), TimeInv t s → ChronoFrom t tr →
      ∃ u, TimeInv u (runActions s tr) := by
  induction tr with
  | nil =>
      intro t s h _
      exact ⟨t, h⟩
  | cons a as ih =>
      intro t s h hc
      exact ih (nextBound t a) (applyAction a s)
        (timeInv_step a h hc.2.1 hc.1) hc.2.2

/-- A guarded map whose branch stamps `dateModified := now` stamps every
matching position. -/
theorem dm_guard_map {l : List Recipe} {rid : String} {now : Nat}
    {g : Recipe → Recipe} (hg : ∀ r, (g r).dateModified = now) (i : Nat)
    (h1 : i < l.length)
    (h2 : i < (l.map fun r => if r.id = rid then g r else r).length)
    (hid : (l.get ⟨i, h1⟩).id = rid) :
    ((l.map fun r => if r.id = rid then g r else r).get ⟨i, h2⟩).dateModified
      = now := by
  simp only [List.get_eq_getElem] at hid ⊢
  simp [List.getElem_map, hid, hg]

/-- C3 (amended): (1) in every state reachable from the initial state by a
chronological call sequence (non-decreasing observed wall-clock times)
whose `updateRecipe` partials do not contain `dateCreated`, every recipe
satisfies `dateCreated ≤ dateModified`; without those restrictions the
claim fails (see the counterexample). (2) Unconditionally, every mutation
that touches a recipe or its sub-entities (`updateRecipe`,
`toggleFavorite`, and the six ingredient/instruction operations) sets the
matched recipe's `dateModified` to the time observed by the call. -/
theorem dates_invariant_chronological :
    (∀ tr, ChronoFrom 0 tr →
      ∀ r ∈ (runActions initialState tr).recipes,
        r.dateCreated ≤ r.dateModified)
    ∧ (∀ (a : StoreAction) (rid : String) (now : Nat) (s : RecipeStore),
        mutTarget a = some (rid, now) →
        ∀ (i : Nat) (h1 : i < s.recipes.length)
          (h2 : i < (applyAction a s).recipes.length),
          (s.recipes.get ⟨i, h1⟩).id = rid →
          ((applyAction a s).recipes.get ⟨i, h2⟩).dateModified = now) := by
  constructor
  · intro tr hc r hr
    have hinit : TimeInv 0 initialState := by
      intro r0 hr0
      simp [initialState] at hr0
    obtain ⟨u, hinv⟩ := timeInv_run tr 0 initialState hinit hc
    exact (hinv r hr).1
  · intro a rid now s hmt i h1 h2 hid
    cases a with
    | updateRecipe id p now2 =>
        simp only [mutTarget, Option.some.injEq, Prod.mk.injEq] at hmt
        obtain ⟨rfl, rfl⟩ := hmt
        exact dm_guard_map
          (g := fun recipe =>
            { applyRecipePatch recipe p with dateModified := now2 })
          (fun r => rfl) i h1 h2 hid
    | addIngredient rid2 nid d now2 =>
        simp only [mutTarget, Option.some.injEq, Prod.mk.injEq] at hmt
        obtain ⟨rfl, rfl⟩ := hmt
        exact dm_guard_map
          (g := fun recipe =>
            { recipe with
              ingredients := recipe.ingredients ++
                [{ id := nid, name := d.name, amount := d.amount
                   unit := d.unit, preparation := d.preparation }]
              dateModified := now2 })
          (fun r => rfl) i h1 h2 hid
    | updateIngredient rid2 sub p now2 =>
        simp only [mutTarget, Option.some.injEq, Prod.mk.injEq] at hmt
        obtain ⟨rfl, rfl⟩ := hmt
        exact dm_guard_map
          (g := fun recipe =>
            { recipe with
              ingredients := recipe.ingredients.map fun ingredient =>
                if ingredient.id = sub then applyIngredientPatch ingredient p
                else ingredient
              dateModified := now2 })
          (fun r => rfl) i h1 h2 hid
    | removeIngredient rid2 sub now2 =>
        simp only [mutTarget, Option.some.injEq, Prod.mk.injEq] at hmt
        obtain ⟨rfl, rfl⟩ := hmt
        exact dm_guard_map
          (g := fun recipe =>
            { recipe with
              ingredients := recipe.ingredients.filter fun ingredient =>
                ingredient.id ≠ sub
              dateModified := now2 })
          (fun r => rfl) i h1 h2 hid
    | addInstruction rid2 nid d now2 =>
        simp only [mutTarget, Option.some.injEq, Prod.mk.injEq] at hmt
        obtain ⟨rfl, rfl⟩ := hmt
        exact dm_guard_map
          (g := fun recipe =>
            { recipe with
              instructions := recipe.instructions ++
                [{ id := nid, stepNumber := d.stepNumber, text := d.text }]
              dateModified := now2 })
          (fun r => rfl) i h1 h2 hid
    | updateInstruction rid2 sub p now2 =>
        simp only [mutTarget, Option.some.injEq, Prod.mk.injEq] at hmt
        obtain ⟨rfl, rfl⟩ := hmt
        exact dm_guard_map
          (g := fun recipe =>
            { recipe with
              instructions := recipe.instructions.map fun instruction =>
                if instruction.id = sub then applyInstructionPatch instruction p
                else instruction
              dateModified := now2 })
          (fun r => rfl) i h1 h2 hid
    | removeInstruction rid2 sub now2 =>
        simp only [mutTarget, Option.some.injEq, Prod.mk.injEq] at hmt
        obtain ⟨rfl, rfl⟩ := hmt
        exact dm_guard_map
          (g := fun recipe =>
            { recipe with
              instructions := recipe.instructions.filter fun instruction =>
                instruction.id ≠ sub
              dateModified := now2 })
          (fun r => rfl) i h1 h2 hid
    | toggleFavorite id now2 =>
        simp only [mutTarget, Option.some.injEq, Prod.mk.injEq] at hmt
        obtain ⟨rfl, rfl⟩ := hmt
        exact dm_guard_map
          (g := fun recipe =>
            { recipe with
              isFavorite := !recipe.isFavorite
              dateModified := now2 })
          (fun r => rfl) i h1 h2 hid
    | createRecipe nid now2 d => simp [mutTarget] at hmt
    | deleteRecipe id => simp [mutTarget] at hmt
    | selectRecipe id => simp [mutTarget] at hmt
    | startEditing => simp [mutTarget] at hmt
    | finishEditing => simp [mutTarget] at hmt
    | startCreating => simp [mutTarget] at hmt
    | cancelCreating => simp [mutTarget] at hmt
    | setSearchTerm t => simp [mutTarget] at hmt
    | setFilterCategory c => simp [mutTarget] at hmt

/-- A partial that carries a `dateCreated` value. -/
def backdatePatch : RecipePatch :=
  { RecipePatch.empty with dateCreated := some 5 }

/-- The state reached by creating a recipe at time 0 and then updating it
at time 1 with a partial that sets `dateCreated := 5`. -/
def backdatedStore : RecipeStore :=
  applyAction (StoreAction.updateRecipe "a" backdatePatch 1)
    (applyAction (StoreAction.createRecipe "a" 0 sampleInput) initialState)

/-- The recipe that results: created 5, modified 1. -/
def backdatedRecipe : Recipe :=
  { sampleRecipe with dateCreated := 5, dateModified := 1 }

/-- C3 counterexample: a state reachable by two store operations whose
sole recipe has `dateModified < dateCreated` — `updateRecipe` merges the
partial's `dateCreated` field, so the invariant in the claim does not hold
over arbitrary operation sequences. -/
theorem updateRecipe_can_backdate :
    Reachable backdatedStore
    ∧ backdatedStore.recipes = [backdatedRecipe]
    ∧ backdatedRecipe.dateModified < backdatedRecipe.dateCreated := by
  refine ⟨Reachable.next _ (Reachable.next _ Reachable.init), by decide, by decide⟩

/-- Witness for the amended C3 at concrete inputs. -/
theorem dates_invariant_chronological_concrete :
    sampleRecipe.dateCreated ≤ sampleRecipe.dateModified
    ∧ ((applyAction (StoreAction.toggleFavorite "a" 5) sampleStore).recipes.get
        ⟨0, by decide⟩).dateModified = 5 :=
  ⟨dates_invariant_chronological.1 [StoreAction.createRecipe "a" 0 sampleInput]
      ⟨Nat.zero_le _, trivial, trivial⟩ sampleRecipe (by decide),
   dates_invariant_chronological.2 (StoreAction.toggleFavorite "a" 5) "a" 5
      sampleStore rfl 0 (by decide) (by decide) (by decide)⟩
